import Mathlib

/-!
Verification development for the neo_kinematics_omnidrive driver.

The definitions below are a shallow embedding of the two source files
`src/neo_omnidrive_socketcan.cpp` and `include/OmniKinematics.h`:

* machine integers (`int32_t`, `int`, `char`) are modelled as `ℤ`, with
  explicit reduction modulo `2^32` (`wrap32`) respectively modulo `2^256`
  into the signed range (`toChar`) exactly where the C++ types truncate
  or wrap; `char` is signed on the target platform (gcc, x86-64 Linux),
  so a stored byte is a value in `[-128, 127]`;
* `double` values are modelled as real numbers, `ros::Time` values as
  real-valued timestamps;
* C++ code that throws is modelled with `Except`.
-/

/-- Conversion of an `int32_t` (or wider intermediate) value to the
two's-complement value of type `int32_t`, i.e. reduction into
`[-2^31, 2^31)`.  Models the wrap-around of 32-bit arithmetic. -/
def wrap32 (x : ℤ) : ℤ := (x + 2 ^ 31) % 2 ^ 32 - 2 ^ 31

/-- Conversion of an integer to a signed `char` value in `[-128, 127]`,
the gcc semantics of the C++ implicit `int32_t → char` conversion
(take the low 8 bits, two's complement). -/
def toChar (x : ℤ) : ℤ := (x + 128) % 256 - 128

/-- 32-bit bitwise OR: interpret both arguments as 32-bit two's-complement
patterns, OR them, and read the result back as a signed `int32_t`.
Models the C++ `|` operator on `int32_t` operands. -/
def or32 (x y : ℤ) : ℤ := wrap32 (Nat.lor (x % 2 ^ 32).toNat ((y % 2 ^ 32).toNat))

/-- `motor_state_e` from `neo_omnidrive_socketcan.cpp`. -/
inductive motor_state_e where
  | ST_PRE_INITIALIZED
  | ST_OPERATION_ENABLED
  | ST_OPERATION_DISABLED
  | ST_MOTOR_FAILURE
deriving DecidableEq

export motor_state_e (ST_PRE_INITIALIZED ST_OPERATION_ENABLED ST_OPERATION_DISABLED ST_MOTOR_FAILURE)

/-- `struct motor_t` from `neo_omnidrive_socketcan.cpp` (lines 38-63),
with the same fields and default member initializers.  `ros::Time`
fields are real-valued timestamps (default-constructed to time zero). -/
structure motor_t where
  joint_name : String := ""
  can_id : ℤ := -1
  rot_sign : ℤ := 0
  enc_ticks_per_rev : ℤ := 0
  enc_home_offset : ℤ := 0
  max_vel_enc_s : ℤ := 1000000
  max_accel_enc_s : ℤ := 1000000
  can_Tx_PDO1 : ℤ := -1
  can_Tx_PDO2 : ℤ := -1
  can_Rx_PDO2 : ℤ := -1
  can_Tx_SDO : ℤ := -1
  can_Rx_SDO : ℤ := -1
  gear_ratio : ℝ := 0
  state : motor_state_e := ST_PRE_INITIALIZED
  curr_enc_pos_inc : ℤ := 0
  curr_enc_vel_inc_s : ℤ := 0
  curr_status : ℤ := 0
  curr_motor_failure : ℤ := 0
  request_send_time : ℝ := 0
  status_recv_time : ℝ := 0
  last_update_time : ℝ := 0
  homing_state : ℤ := -1

/-- `struct module_t` from `neo_omnidrive_socketcan.cpp` (lines 65-77). -/
structure module_t where
  drive : motor_t := {}
  steer : motor_t := {}
  home_dig_in : ℤ := 0
  home_angle : ℝ := 0
  curr_wheel_pos : ℝ := 0
  curr_wheel_vel : ℝ := 0
  curr_steer_pos : ℝ := 0
  curr_steer_vel : ℝ := 0

/-- `struct can_msg_t` from `neo_omnidrive_socketcan.cpp` (lines 79-84).
The payload `char data[8]` is modelled as eight signed-char-valued
fields `data0 … data7`, zero-initialized as in the source. -/
structure can_msg_t where
  id : ℤ := -1
  length : ℤ := 0
  data0 : ℤ := 0
  data1 : ℤ := 0
  data2 : ℤ := 0
  data3 : ℤ := 0
  data4 : ℤ := 0
  data5 : ℤ := 0
  data6 : ℤ := 0
  data7 : ℤ := 0
deriving DecidableEq

/-- Array access `msg.data[i]` on the modelled payload. -/
def can_msg_t.data_at (msg : can_msg_t) (i : ℤ) : ℤ :=
  if i = 0 then msg.data0
  else if i = 1 then msg.data1
  else if i = 2 then msg.data2
  else if i = 3 then msg.data3
  else if i = 4 then msg.data4
  else if i = 5 then msg.data5
  else if i = 6 then msg.data6
  else if i = 7 then msg.data7
  else 0

/-- `canopen_set_int` (`neo_omnidrive_socketcan.cpp` lines 703-717): builds
the 8-byte command frame; the two command characters go into bytes 0-1,
the 14-bit index little-endian into bytes 2-3 (top two bits of byte 3
forced to zero by the `& 0x3F` mask), and the `int32_t` payload
little-endian into bytes 4-7.  Each byte store goes through the
`int32_t → char` conversion `toChar`; `>>` on `int32_t` is an arithmetic
shift, i.e. `>>>` on `ℤ`. -/
def canopen_set_int (motor : motor_t) (cmd_char_1 cmd_char_2 : Char) (index data : ℤ) : can_msg_t :=
  { id := motor.can_Rx_PDO2
    length := 8
    data0 := (cmd_char_1.toNat : ℤ)
    data1 := (cmd_char_2.toNat : ℤ)
    data2 := toChar index
    data3 := toChar (Int.land (index >>> 8) 0x3F)
    data4 := toChar data
    data5 := toChar (data >>> 8)
    data6 := toChar (data >>> 16)
    data7 := toChar (data >>> 24) }

/-- `read_int32` (`neo_omnidrive_socketcan.cpp` lines 863-870): throws
`std::logic_error("invalid offset")` when `offset < 0 || offset > 4`,
otherwise assembles
`(int32_t(data[offset+3]) << 24) | (int32_t(data[offset+2]) << 16) |
(int32_t(data[offset+1]) << 8) | int32_t(data[offset+0])`.
The `char → int32_t` conversions are value-preserving (sign extension);
each `<<` produces an `int32_t` (hence `wrap32`), and `|` is the 32-bit
OR `or32`. -/
def read_int32 (msg : can_msg_t) (offset : ℤ) : Except String ℤ :=
  if offset < 0 ∨ offset > 4 then Except.error "invalid offset"
  else Except.ok (or32 (or32 (or32
    (wrap32 (msg.data_at (offset + 3) * 2 ^ 24))
    (wrap32 (msg.data_at (offset + 2) * 2 ^ 16)))
    (wrap32 (msg.data_at (offset + 1) * 2 ^ 8)))
    (msg.data_at (offset + 0)))

/-- A concrete motor configuration (all default member initializers),
used to build concrete command frames. -/
def test_motor : motor_t := {}

/-- C1: the encode/decode round trip FAILS on the code.  Encoding the
`int32_t` value `255` with `canopen_set_int` stores byte `0xFF` in the
signed `char` payload slot 4; `read_int32` sign-extends that byte to
`int32_t` before OR-ing, so decoding at offset 4 returns `-1`, not
`255`. -/
theorem read_int32_canopen_set_int_not_roundtrip :
    read_int32 (canopen_set_int test_motor 'J' 'V' 0 255) 4 = Except.ok (-1) ∧
    (-1 : ℤ) ≠ 255 :=
  ⟨rfl, by decide⟩

/-- C8: `read_int32` fails with the invalid-offset error if and only if
the offset lies outside `[0, 4]`; for every offset in `[0, 4]` it
returns a value without error. -/
theorem read_int32_invalid_offset_iff :
    ∀ (msg : can_msg_t) (offset : ℤ),
      (read_int32 msg offset = Except.error "invalid offset" ↔ offset < 0 ∨ offset > 4) ∧
      (¬(offset < 0 ∨ offset > 4) → ∃ v, read_int32 msg offset = Except.ok v) := by
  intro msg offset
  constructor
  · constructor
    · intro h
      by_contra hc
      rw [read_int32, if_neg hc] at h
      exact Except.noConfusion h
    · intro h
      rw [read_int32, if_pos h]
  · intro h
    rw [read_int32, if_neg h]
    exact ⟨_, rfl⟩

/-- Witness for C8: at offset `2` (inside `[0, 4]`) decoding an all-zero
frame succeeds. -/
theorem read_int32_invalid_offset_iff_witness :
    ¬((2 : ℤ) < 0 ∨ (2 : ℤ) > 4) ∧ ∃ v, read_int32 {} 2 = Except.ok v :=
  ⟨by decide, (read_int32_invalid_offset_iff {} 2).2 (by decide)⟩

/-- The human-readable reports issued through `ROS_ERROR_STREAM` /
`ROS_INFO_STREAM` by `evaluate_status`. -/
inductive status_report_e where
  | drive_error_under_voltage
  | drive_error_over_voltage
  | drive_error_short_circuit
  | drive_error_over_heating
  | unknown_failure
  | failure_latched
  | operation_enabled
  | operation_disabled
deriving DecidableEq

/-- `evaluate_status` (`neo_omnidrive_socketcan.cpp` lines 900-959).
The motor's `curr_status` has already been updated by the caller
(`handle_PDO2`); `prev_status` is the previous raw status word.  The
result is the updated motor, the list of reports logged during the
call, and whether a failure-detail request (`canopen_query 'M' 'F' 0`)
was issued.  Masks: `0x1` = fault bit, `0xE` = fault sub-bits,
`1 << 6 = 64` = latched failure, `1 << 4 = 16` = motor on. -/
def evaluate_status (motor : motor_t) (prev_status : ℤ) : motor_t × List status_report_e × Bool :=
  if Int.land motor.curr_status 1 ≠ 0 then
    ({ motor with state := ST_MOTOR_FAILURE },
      (if motor.curr_status ≠ prev_status then
        [if Int.land motor.curr_status 0xE = 2 then status_report_e.drive_error_under_voltage
         else if Int.land motor.curr_status 0xE = 4 then status_report_e.drive_error_over_voltage
         else if Int.land motor.curr_status 0xE = 10 then status_report_e.drive_error_short_circuit
         else if Int.land motor.curr_status 0xE = 12 then status_report_e.drive_error_over_heating
         else status_report_e.unknown_failure]
       else []),
      true)
  else if Int.land motor.curr_status 64 ≠ 0 then
    ({ motor with state := ST_MOTOR_FAILURE },
      (if motor.curr_status ≠ prev_status then [status_report_e.failure_latched] else []),
      true)
  else if Int.land motor.curr_status 16 ≠ 0 then
    ({ motor with state := ST_OPERATION_ENABLED },
      (if motor.state ≠ ST_OPERATION_ENABLED then [status_report_e.operation_enabled] else []),
      false)
  else
    ({ motor with state := ST_OPERATION_DISABLED },
      (if motor.state ≠ ST_OPERATION_DISABLED then [status_report_e.operation_disabled] else []),
      false)

/-- C5: a status word with the fault bit (bit 0) set and fault sub-bits
`status & 0xE = 10` makes `evaluate_status` log the short-circuit cause
(when the status word changed, which is when logging happens) and set
the motor state to `ST_MOTOR_FAILURE`; the status word `0b10000 = 16`
(bit 4 set, bits 0 and 6 clear) sets the state to
`ST_OPERATION_ENABLED`. -/
theorem evaluate_status_short_circuit_and_enabled :
    (∀ (motor : motor_t) (prev_status : ℤ),
       Int.land motor.curr_status 1 ≠ 0 →
       Int.land motor.curr_status 0xE = 10 →
       motor.curr_status ≠ prev_status →
       (evaluate_status motor prev_status).1.state = ST_MOTOR_FAILURE ∧
       (evaluate_status motor prev_status).2.1 = [status_report_e.drive_error_short_circuit]) ∧
    (∀ (motor : motor_t) (prev_status : ℤ),
       motor.curr_status = 16 →
       (evaluate_status motor prev_status).1.state = ST_OPERATION_ENABLED) := by
  constructor
  · intro motor prev_status h1 h10 hch
    rw [evaluate_status, if_pos h1]
    refine ⟨rfl, ?_⟩
    rw [if_pos hch, if_neg (by rw [h10]; decide), if_neg (by rw [h10]; decide), if_pos h10]
  · intro motor prev_status h16
    rw [evaluate_status]
    rw [if_neg (by rw [h16]; decide), if_neg (by rw [h16]; decide),
      if_pos (by rw [h16]; decide)]

/-- A motor that has just reported status word `11 = 0b1011`
(fault bit set, sub-bits `0b1010 = 10`). -/
def c5_motor_fault : motor_t := { curr_status := 11 }

/-- A motor that has just reported status word `16 = 0b10000`. -/
def c5_motor_on : motor_t := { curr_status := 16 }

/-- Witness for C5 at the concrete status words `11` and `16`. -/
theorem evaluate_status_short_circuit_and_enabled_witness :
    (Int.land c5_motor_fault.curr_status 1 ≠ 0 ∧
     Int.land c5_motor_fault.curr_status 0xE = 10 ∧
     c5_motor_fault.curr_status ≠ 0) ∧
    ((evaluate_status c5_motor_fault 0).1.state = ST_MOTOR_FAILURE ∧
     (evaluate_status c5_motor_fault 0).2.1 = [status_report_e.drive_error_short_circuit]) ∧
    (evaluate_status c5_motor_on 0).1.state = ST_OPERATION_ENABLED :=
  ⟨⟨by decide, by decide, by decide⟩,
   evaluate_status_short_circuit_and_enabled.1 c5_motor_fault 0 (by decide) (by decide) (by decide),
   evaluate_status_short_circuit_and_enabled.2 c5_motor_on 0 (by decide)⟩

/-- `check_homing_done` (`neo_omnidrive_socketcan.cpp` lines 493-502):
returns `false` as soon as some wheel's steer motor has
`homing_state != 1`, else `true`. -/
def check_homing_done (m_wheels : List module_t) : Bool :=
  m_wheels.all fun wheel => wheel.steer.homing_state == 1

/-- A wheel module whose steer motor's homing switch has triggered
(`homing_state = 1`). -/
def homed_wheel : module_t := { steer := { homing_state := 1 } }

/-- A wheel module whose steer motor's homing switch is still armed
(`homing_state = 0`). -/
def unhomed_wheel : module_t := { steer := { homing_state := 0 } }

/-- Four wheels, of which exactly three have triggered. -/
def three_of_four_wheels : List module_t :=
  [homed_wheel, homed_wheel, homed_wheel, unhomed_wheel]

/-- C6: `check_homing_done` returns `true` iff every wheel's steer motor
has `homing_state = 1`; on a concrete set of four wheels with exactly
three triggered it returns `false`. -/
theorem check_homing_done_iff_all_triggered :
    (∀ m_wheels : List module_t,
       check_homing_done m_wheels = true ↔
         ∀ wheel ∈ m_wheels, wheel.steer.homing_state = 1) ∧
    (three_of_four_wheels.length = 4 ∧
     (three_of_four_wheels.countP fun wheel => wheel.steer.homing_state == 1) = 3 ∧
     check_homing_done three_of_four_wheels = false) := by
  constructor
  · intro m_wheels
    simp [check_homing_done, List.all_eq_true]
  · exact ⟨by decide, by decide, by decide⟩

/-- Witness for C6: the general equivalence applied to the concrete
3-of-4 wheel set. -/
theorem check_homing_done_iff_all_triggered_witness :
    check_homing_done three_of_four_wheels = true ↔
      ∀ wheel ∈ three_of_four_wheels, wheel.steer.homing_state = 1 :=
  check_homing_done_iff_all_triggered.1 three_of_four_wheels

/-- `check_motor_timeout` (`neo_omnidrive_socketcan.cpp` lines 411-421):
if no status reply has arrived since the last request
(`status_recv_time < request_send_time`) and more than
`m_motor_timeout` seconds have elapsed since the request was sent, the
motor state is set to `ST_MOTOR_FAILURE`; the timeout error is logged
(second component `true`) only when the motor was not already in
`ST_MOTOR_FAILURE`. -/
noncomputable def check_motor_timeout (motor : motor_t) (now m_motor_timeout : ℝ) : motor_t × Bool :=
  if motor.status_recv_time < motor.request_send_time ∧
      now - motor.request_send_time > m_motor_timeout then
    ({ motor with state := ST_MOTOR_FAILURE }, decide (motor.state ≠ ST_MOTOR_FAILURE))
  else
    (motor, false)

/-- C7: `check_motor_timeout` transitions to `ST_MOTOR_FAILURE` exactly
when the reply is missing and overdue; the timeout error is logged iff
additionally the motor was not already failed; when the condition does
not hold, motor and log flag are returned unchanged; and a repeated
check of the already-failed motor never logs or transitions again. -/
theorem check_motor_timeout_spec :
    ∀ (motor : motor_t) (now m_motor_timeout : ℝ),
      (motor.status_recv_time < motor.request_send_time ∧
          now - motor.request_send_time > m_motor_timeout →
        (check_motor_timeout motor now m_motor_timeout).1.state = ST_MOTOR_FAILURE ∧
        ((check_motor_timeout motor now m_motor_timeout).2 = true ↔
          motor.state ≠ ST_MOTOR_FAILURE) ∧
        (∀ now2 : ℝ,
          (check_motor_timeout (check_motor_timeout motor now m_motor_timeout).1
            now2 m_motor_timeout).2 = false ∧
          (check_motor_timeout (check_motor_timeout motor now m_motor_timeout).1
            now2 m_motor_timeout).1.state = ST_MOTOR_FAILURE)) ∧
      (¬(motor.status_recv_time < motor.request_send_time ∧
          now - motor.request_send_time > m_motor_timeout) →
        check_motor_timeout motor now m_motor_timeout = (motor, false)) := by
  intro motor now m_motor_timeout
  constructor
  · intro h
    rw [check_motor_timeout, if_pos h]
    refine ⟨rfl, by simp, ?_⟩
    intro now2
    rw [check_motor_timeout]
    by_cases h2 : ({ motor with state := ST_MOTOR_FAILURE } : motor_t).status_recv_time <
        ({ motor with state := ST_MOTOR_FAILURE } : motor_t).request_send_time ∧
        now2 - ({ motor with state := ST_MOTOR_FAILURE } : motor_t).request_send_time > m_motor_timeout
    · rw [if_pos h2]
      exact ⟨rfl, rfl⟩
    · rw [if_neg h2]
      exact ⟨rfl, rfl⟩
  · intro h
    rw [check_motor_timeout, if_neg h]

/-- A motor whose last status request (time 1) is newer than its last
status reply (time 0). -/
def c7_motor : motor_t := { request_send_time := 1 }

/-- Witness for C7: with `now = 3` and a timeout of `1` second, the
concrete motor `c7_motor` (request sent at time 1, no reply since) is
overdue and transitions to `ST_MOTOR_FAILURE` with a single log. -/
theorem check_motor_timeout_spec_witness :
    (c7_motor.status_recv_time < c7_motor.request_send_time ∧
      (3 : ℝ) - c7_motor.request_send_time > 1) ∧
    ((check_motor_timeout c7_motor 3 1).1.state = ST_MOTOR_FAILURE ∧
     ((check_motor_timeout c7_motor 3 1).2 = true ↔ c7_motor.state ≠ ST_MOTOR_FAILURE) ∧
     (∀ now2 : ℝ,
       (check_motor_timeout (check_motor_timeout c7_motor 3 1).1 now2 1).2 = false ∧
       (check_motor_timeout (check_motor_timeout c7_motor 3 1).1 now2 1).1.state =
         ST_MOTOR_FAILURE)) := by
  have h : c7_motor.status_recv_time < c7_motor.request_send_time ∧
      (3 : ℝ) - c7_motor.request_send_time > 1 :=
    ⟨by simp [c7_motor], by norm_num [c7_motor]⟩
  exact ⟨h, (check_motor_timeout_spec c7_motor 3 1).1 h⟩

/-- The C++ `int(x)` conversion from `double` to a machine integer:
truncation toward zero. -/
noncomputable def double_to_int (x : ℝ) : ℤ := if 0 ≤ x then ⌊x⌋ else ⌈x⌉

/-- The velocity value transmitted by `motor_set_vel`
(`neo_omnidrive_socketcan.cpp` lines 674-681): convert the commanded
rotational velocity (rad/s) to encoder ticks/s, apply the rotation
sign, and clamp to `[-max_vel_enc_s, max_vel_enc_s]` via
`std::min(std::max(v, -max), max)`. -/
noncomputable def motor_set_vel_data (motor : motor_t) (rot_vel_rad_s : ℝ) : ℤ :=
  min (max (motor.rot_sign *
    double_to_int (motor_t.gear_ratio motor * rot_vel_rad_s / (2 * Real.pi) *
      (motor.enc_ticks_per_rev : ℝ)))
    (-motor.max_vel_enc_s)) motor.max_vel_enc_s

/-- `motor_set_vel` itself: the clamped value is sent as the payload of
a `'J' 'V'` (jogging velocity) command frame. -/
noncomputable def motor_set_vel (motor : motor_t) (rot_vel_rad_s : ℝ) : can_msg_t :=
  canopen_set_int motor 'J' 'V' 0 (motor_set_vel_data motor rot_vel_rad_s)

/-- C9: for a motor with a nonnegative configured maximum velocity (the
source documents `max_vel_enc_s` as positive), the velocity integer
transmitted by `motor_set_vel` never exceeds `max_vel_enc_s` in
magnitude, and the transmitted frame is exactly the `'J' 'V'` command
frame carrying that clamped value. -/
theorem motor_set_vel_clamped :
    ∀ (motor : motor_t) (rot_vel_rad_s : ℝ),
      0 ≤ motor.max_vel_enc_s →
      |motor_set_vel_data motor rot_vel_rad_s| ≤ motor.max_vel_enc_s ∧
      motor_set_vel motor rot_vel_rad_s =
        canopen_set_int motor 'J' 'V' 0 (motor_set_vel_data motor rot_vel_rad_s) := by
  intro motor rot_vel_rad_s h
  refine ⟨?_, rfl⟩
  rw [abs_le, motor_set_vel_data]
  constructor
  · exact le_min (le_max_right _ _) (neg_le_self h)
  · exact min_le_right _ _

/-- Witness for C9 at the default motor configuration
(`max_vel_enc_s = 1000000`) and zero commanded velocity. -/
theorem motor_set_vel_clamped_witness :
    (0 : ℤ) ≤ test_motor.max_vel_enc_s ∧
    |motor_set_vel_data test_motor 0| ≤ test_motor.max_vel_enc_s ∧
    motor_set_vel test_motor 0 =
      canopen_set_int test_motor 'J' 'V' 0 (motor_set_vel_data test_motor 0) :=
  ⟨by decide, motor_set_vel_clamped test_motor 0 (by decide)⟩

/-- `::atan2(y, x)` from the C math library, modelled over the reals:
the angle of the vector `(x, y)` in `(-π, π]`. -/
noncomputable def atan2 (y x : ℝ) : ℝ :=
  if 0 < x then Real.arctan (y / x)
  else if x < 0 then
    (if 0 ≤ y then Real.arctan (y / x) + Real.pi else Real.arctan (y / x) - Real.pi)
  else
    (if 0 < y then Real.pi / 2 else if y < 0 then -(Real.pi / 2) else 0)

/-- `::hypot(x, y)` from the C math library: the Euclidean norm of
`(x, y)`. -/
noncomputable def hypot (x y : ℝ) : ℝ := Real.sqrt (x ^ 2 + y ^ 2)

/-- `angles::normalize_angle_positive` from the ROS `angles` package
(an external dependency of `OmniKinematics.h`):
`fmod(fmod(a, 2π) + 2π, 2π)`, which over the reals is reduction of `a`
modulo `2π` into `[0, 2π)`. -/
noncomputable def normalize_angle_positive (angle : ℝ) : ℝ :=
  angle - 2 * Real.pi * (⌊angle / (2 * Real.pi)⌋ : ℝ)

/-- `angles::normalize_angle` from the ROS `angles` package: normalizes
an angle into `(-π, π]`. -/
noncomputable def normalize_angle (angle : ℝ) : ℝ :=
  if normalize_angle_positive angle > Real.pi then normalize_angle_positive angle - 2 * Real.pi
  else normalize_angle_positive angle

/-- `angles::shortest_angular_distance(from, to)` from the ROS `angles`
package: the signed shortest rotation from the first to the second
angle. -/
noncomputable def shortest_angular_distance (angle_from angle_to : ℝ) : ℝ :=
  normalize_angle (angle_to - angle_from)

theorem normalize_angle_positive_eq (angle : ℝ) :
    normalize_angle_positive angle = 2 * Real.pi * Int.fract (angle / (2 * Real.pi)) := by
  have h : (2 * Real.pi) ≠ 0 := by positivity
  rw [normalize_angle_positive, Int.fract, mul_sub, mul_div_cancel₀ _ h]

theorem normalize_angle_positive_nonneg (angle : ℝ) : 0 ≤ normalize_angle_positive angle := by
  rw [normalize_angle_positive_eq]
  have := Real.pi_pos
  exact mul_nonneg (by linarith) (Int.fract_nonneg _)

theorem normalize_angle_positive_lt_two_pi (angle : ℝ) :
    normalize_angle_positive angle < 2 * Real.pi := by
  rw [normalize_angle_positive_eq]
  have h2 : (0 : ℝ) < 2 * Real.pi := by have := Real.pi_pos; linarith
  calc 2 * Real.pi * Int.fract (angle / (2 * Real.pi)) < 2 * Real.pi * 1 :=
        mul_lt_mul_of_pos_left (Int.fract_lt_one _) h2
    _ = 2 * Real.pi := mul_one _

/-- `normalize_angle` lands in `(-π, π]`. -/
theorem normalize_angle_range (angle : ℝ) :
    -Real.pi < normalize_angle angle ∧ normalize_angle angle ≤ Real.pi := by
  have h0 := normalize_angle_positive_nonneg angle
  have h1 := normalize_angle_positive_lt_two_pi angle
  have hp := Real.pi_pos
  rw [normalize_angle]
  by_cases h : normalize_angle_positive angle > Real.pi
  · rw [if_pos h]
    constructor <;> linarith
  · rw [if_neg h]
    push_neg at h
    constructor <;> linarith

/-- Modelled from the spec: `OmniWheel.h` is not among the given source
files.  Per §3 of the spec, a wheel module carries its mounting offsets
(`center_pos_x`, `center_pos_y`), its home steering angle
(`home_angle`), and the computed wheel angle and velocity
(`wheel_angle`, `wheel_vel`) — the fields `OmniKinematics::compute`
reads and writes. -/
structure OmniWheel where
  center_pos_x : ℝ := 0
  center_pos_y : ℝ := 0
  home_angle : ℝ := 0
  wheel_angle : ℝ := 0
  wheel_vel : ℝ := 0

instance : Inhabited OmniWheel := ⟨{}⟩

/-- Modelled from the spec: the derived wheel pose radius, "position
radius … from mounting offsets" (§3). -/
noncomputable def OmniWheel.get_wheel_pos_radius (wheel : OmniWheel) : ℝ :=
  hypot wheel.center_pos_x wheel.center_pos_y

/-- Modelled from the spec: the derived wheel pose angle, "position …
angle from mounting offsets" (§3). -/
noncomputable def OmniWheel.get_wheel_pos_angle (wheel : OmniWheel) : ℝ :=
  atan2 wheel.center_pos_y wheel.center_pos_x

/-- Modelled from the spec: `set_wheel_angle` stores the computed
steering angle into the wheel. -/
def OmniWheel.set_wheel_angle (wheel : OmniWheel) (angle : ℝ) : OmniWheel :=
  { wheel with wheel_angle := angle }

/-- The `OmniKinematics` solver class (`OmniKinematics.h` lines 51-153):
configuration members with their default initializers, plus the
per-wheel hysteresis state `is_driving` / `is_alternate`, the solver's
only mutable state. -/
structure OmniKinematics where
  zero_vel_threshold : ℝ := 0.01
  steering_hysteresis : ℝ := 0.1
  home_on_stop : Bool := false
  num_wheels : ℕ
  is_driving : List Bool
  is_alternate : List Bool

/-- The constructor `OmniKinematics(num_wheels_)` (`OmniKinematics.h`
lines 57-62): sizes both hysteresis vectors to `num_wheels` (with
`vector<bool>` default value `false`). -/
def OmniKinematics.init (num_wheels_ : ℕ) : OmniKinematics :=
  { num_wheels := num_wheels_
    is_driving := List.replicate num_wheels_ false
    is_alternate := List.replicate num_wheels_ false }

/-- `vel_x` of `compute` (`OmniKinematics.h` lines 95-98): commanded
x-velocity at the wheel, `move_vel_x + tangential * -sin(φ)` with
`tangential = r * move_yawrate`. -/
noncomputable def cmd_vel_x (wheel : OmniWheel) (move_vel_x move_yawrate : ℝ) : ℝ :=
  move_vel_x + wheel.get_wheel_pos_radius * move_yawrate * (-Real.sin wheel.get_wheel_pos_angle)

/-- `vel_y` of `compute` (`OmniKinematics.h` line 99):
`move_vel_y + tangential * cos(φ)`. -/
noncomputable def cmd_vel_y (wheel : OmniWheel) (move_vel_y move_yawrate : ℝ) : ℝ :=
  move_vel_y + wheel.get_wheel_pos_radius * move_yawrate * Real.cos wheel.get_wheel_pos_angle

/-- The candidate steering angle `new_wheel_angle = atan2(vel_y, vel_x)`
(`OmniKinematics.h` line 102). -/
noncomputable def new_wheel_angle (wheel : OmniWheel) (move_vel_x move_vel_y move_yawrate : ℝ) : ℝ :=
  atan2 (cmd_vel_y wheel move_vel_y move_yawrate) (cmd_vel_x wheel move_vel_x move_yawrate)

/-- The candidate drive speed `new_wheel_vel = hypot(vel_x, vel_y)`
(`OmniKinematics.h` line 103). -/
noncomputable def new_wheel_vel (wheel : OmniWheel) (move_vel_x move_vel_y move_yawrate : ℝ) : ℝ :=
  hypot (cmd_vel_x wheel move_vel_x move_yawrate) (cmd_vel_y wheel move_vel_y move_yawrate)

/-- The "outer" steering angle of a wheel (`OmniKinematics.h` lines
122-123): the wheel's mounting direction rotated by `-π/2`,
normalized. -/
noncomputable def outer_wheel_angle (wheel : OmniWheel) : ℝ :=
  normalize_angle (atan2 wheel.center_pos_y wheel.center_pos_x - Real.pi / 2)

/-- The loop body of `compute` for one wheel (`OmniKinematics.h` lines
92-143): returns the wheel with the chosen steering angle and drive
velocity, together with the new `is_driving[i]` and `is_alternate[i]`
flags.  The dead-band check uses the *previous* commanded wheel
velocity against `zero_vel_threshold` (doubled when the wheel was not
previously driving). -/
noncomputable def computeWheel (k : OmniKinematics) (wheel : OmniWheel) (driving alternate : Bool)
    (move_vel_x move_vel_y move_yawrate : ℝ) : OmniWheel × Bool × Bool :=
  if |wheel.wheel_vel| > (if driving then k.zero_vel_threshold else 2 * k.zero_vel_threshold) then
    if new_wheel_vel wheel move_vel_x move_vel_y move_yawrate * wheel.wheel_vel < 0 then
      ({ wheel.set_wheel_angle
          (normalize_angle (new_wheel_angle wheel move_vel_x move_vel_y move_yawrate + Real.pi)) with
        wheel_vel := -1 * new_wheel_vel wheel move_vel_x move_vel_y move_yawrate }, true, true)
    else
      ({ wheel.set_wheel_angle (new_wheel_angle wheel move_vel_x move_vel_y move_yawrate) with
        wheel_vel := new_wheel_vel wheel move_vel_x move_vel_y move_yawrate }, true, false)
  else
    if |shortest_angular_distance (new_wheel_angle wheel move_vel_x move_vel_y move_yawrate)
        (outer_wheel_angle wheel)| >
        Real.pi / 2 + (if alternate then -1 else 1) * k.steering_hysteresis then
      ({ wheel.set_wheel_angle
          (normalize_angle (new_wheel_angle wheel move_vel_x move_vel_y move_yawrate + Real.pi)) with
        wheel_vel := -1 * new_wheel_vel wheel move_vel_x move_vel_y move_yawrate }, false, true)
    else
      ({ wheel.set_wheel_angle (new_wheel_angle wheel move_vel_x move_vel_y move_yawrate) with
        wheel_vel := new_wheel_vel wheel move_vel_x move_vel_y move_yawrate }, false, false)

/-- The `for` loop of `compute` (`OmniKinematics.h` lines 92-143),
walking the wheel vector in step with the two hysteresis-state
vectors. -/
noncomputable def computeLoop (k : OmniKinematics) (move_vel_x move_vel_y move_yawrate : ℝ) :
    List OmniWheel → List Bool → List Bool → List OmniWheel × List Bool × List Bool
  | wheel :: wheels, driving :: drivings, alternate :: alternates =>
    let c := computeWheel k wheel driving alternate move_vel_x move_vel_y move_yawrate
    let rest := computeLoop k move_vel_x move_vel_y move_yawrate wheels drivings alternates
    (c.1 :: rest.1, c.2.1 :: rest.2.1, c.2.2 :: rest.2.2)
  | _, _, _ => ([], [], [])

/-- `OmniKinematics::compute` (`OmniKinematics.h` lines 70-145): throws
a `logic_error` on wheel-count mismatch; on an all-zero command sets
every velocity to zero (and, with `home_on_stop`, every angle to the
wheel's home angle) without touching the hysteresis state; otherwise
runs the per-wheel loop and stores the new hysteresis flags. -/
noncomputable def OmniKinematics.compute (k : OmniKinematics) (wheels : List OmniWheel)
    (move_vel_x move_vel_y move_yawrate : ℝ) :
    Except String (List OmniWheel × OmniKinematics) :=
  if wheels.length ≠ k.num_wheels then
    Except.error "wheels.size() != num_wheels"
  else if move_vel_x = 0 ∧ move_vel_y = 0 ∧ move_yawrate = 0 then
    Except.ok
      (wheels.map fun wheel =>
        { wheel with
          wheel_angle := if k.home_on_stop then wheel.home_angle else wheel.wheel_angle
          wheel_vel := 0 },
       k)
  else
    Except.ok
      ((computeLoop k move_vel_x move_vel_y move_yawrate wheels k.is_driving k.is_alternate).1,
       { k with
         is_driving :=
           (computeLoop k move_vel_x move_vel_y move_yawrate wheels k.is_driving k.is_alternate).2.1
         is_alternate :=
           (computeLoop k move_vel_x move_vel_y move_yawrate wheels k.is_driving k.is_alternate).2.2 })

theorem omniWheel_map_getD (f : OmniWheel → OmniWheel) (l : List OmniWheel) :
    ∀ i, i < l.length → (l.map f).getD i default = f (l.getD i default) := by
  induction l with
  | nil => intro i h; exact absurd h (Nat.not_lt_zero i)
  | cons x xs ih =>
    intro i h
    cases i with
    | zero => rfl
    | succ n => simpa using ih n (Nat.lt_of_succ_lt_succ h)

theorem computeLoop_getD (k : OmniKinematics) (move_vel_x move_vel_y move_yawrate : ℝ) :
    ∀ (wheels : List OmniWheel) (drivings alternates : List Bool) (i : ℕ),
      i < wheels.length → i < drivings.length → i < alternates.length →
      (computeLoop k move_vel_x move_vel_y move_yawrate wheels drivings alternates).1.getD i
            default =
          (computeWheel k (wheels.getD i default) (drivings.getD i false) (alternates.getD i false)
            move_vel_x move_vel_y move_yawrate).1 ∧
        (computeLoop k move_vel_x move_vel_y move_yawrate wheels drivings alternates).2.1.getD i
            false =
          (computeWheel k (wheels.getD i default) (drivings.getD i false) (alternates.getD i false)
            move_vel_x move_vel_y move_yawrate).2.1 ∧
        (computeLoop k move_vel_x move_vel_y move_yawrate wheels drivings alternates).2.2.getD i
            false =
          (computeWheel k (wheels.getD i default) (drivings.getD i false) (alternates.getD i false)
            move_vel_x move_vel_y move_yawrate).2.2 := by
  intro wheels
  induction wheels with
  | nil => intro ds as_ i h _ _; exact absurd h (Nat.not_lt_zero i)
  | cons w ws ih =>
    intro ds as_ i h1 h2 h3
    cases ds with
    | nil => exact absurd h2 (Nat.not_lt_zero i)
    | cons d ds2 =>
      cases as_ with
      | nil => exact absurd h3 (Nat.not_lt_zero i)
      | cons a as2 =>
        cases i with
        | zero => exact ⟨rfl, rfl, rfl⟩
        | succ n =>
          have hrec := ih ds2 as2 n (Nat.lt_of_succ_lt_succ h1) (Nat.lt_of_succ_lt_succ h2)
            (Nat.lt_of_succ_lt_succ h3)
          simpa [computeLoop] using hrec

theorem computeWheel_isDriving (k : OmniKinematics) (wheel : OmniWheel) (driving alternate : Bool)
    (move_vel_x move_vel_y move_yawrate : ℝ) :
    (computeWheel k wheel driving alternate move_vel_x move_vel_y move_yawrate).2.1 = true ↔
      |wheel.wheel_vel| > (if driving then k.zero_vel_threshold else 2 * k.zero_vel_threshold) := by
  by_cases hc : |wheel.wheel_vel| > (if driving then k.zero_vel_threshold else 2 * k.zero_vel_threshold)
  · have h2 : (computeWheel k wheel driving alternate move_vel_x move_vel_y move_yawrate).2.1 = true := by
      rw [computeWheel, if_pos hc]
      split <;> rfl
    rw [h2]
    simp [hc]
  · have h2 : (computeWheel k wheel driving alternate move_vel_x move_vel_y move_yawrate).2.1 = false := by
      rw [computeWheel, if_neg hc]
      split <;> split <;> rfl
    rw [h2]
    simp [hc]

theorem computeWheel_driving_flip (k : OmniKinematics) (wheel : OmniWheel)
    (driving alternate : Bool) (move_vel_x move_vel_y move_yawrate : ℝ)
    (hdrv : |wheel.wheel_vel| > (if driving then k.zero_vel_threshold else 2 * k.zero_vel_threshold))
    (hneg : new_wheel_vel wheel move_vel_x move_vel_y move_yawrate * wheel.wheel_vel < 0) :
    computeWheel k wheel driving alternate move_vel_x move_vel_y move_yawrate =
      ({ wheel.set_wheel_angle
          (normalize_angle (new_wheel_angle wheel move_vel_x move_vel_y move_yawrate + Real.pi)) with
        wheel_vel := -1 * new_wheel_vel wheel move_vel_x move_vel_y move_yawrate }, true, true) := by
  rw [computeWheel, if_pos hdrv, if_pos hneg]

theorem computeWheel_driving_keep (k : OmniKinematics) (wheel : OmniWheel)
    (driving alternate : Bool) (move_vel_x move_vel_y move_yawrate : ℝ)
    (hdrv : |wheel.wheel_vel| > (if driving then k.zero_vel_threshold else 2 * k.zero_vel_threshold))
    (hnon : ¬(new_wheel_vel wheel move_vel_x move_vel_y move_yawrate * wheel.wheel_vel < 0)) :
    computeWheel k wheel driving alternate move_vel_x move_vel_y move_yawrate =
      ({ wheel.set_wheel_angle (new_wheel_angle wheel move_vel_x move_vel_y move_yawrate) with
        wheel_vel := new_wheel_vel wheel move_vel_x move_vel_y move_yawrate }, true, false) := by
  rw [computeWheel, if_pos hdrv, if_neg hnon]

/-- C2: on the all-zero command, `compute` succeeds on any wheel vector
of matching length, every returned wheel's velocity is exactly zero,
and, when `home_on_stop` is enabled, every returned wheel's angle is
the corresponding input wheel's configured home angle. -/
theorem compute_zero_command :
    ∀ (k : OmniKinematics) (wheels : List OmniWheel),
      wheels.length = k.num_wheels →
      ∃ res k2,
        k.compute wheels 0 0 0 = Except.ok (res, k2) ∧
        res.length = wheels.length ∧
        (∀ wheel2 ∈ res, wheel2.wheel_vel = 0) ∧
        (k.home_on_stop = true →
          ∀ i < wheels.length,
            (res.getD i default).wheel_angle = (wheels.getD i default).home_angle) := by
  intro k wheels hlen
  rw [OmniKinematics.compute, if_neg (fun hne => hne hlen), if_pos ⟨rfl, rfl, rfl⟩]
  refine ⟨_, k, rfl, by simp, ?_, ?_⟩
  · intro wheel2 hmem
    obtain ⟨w, _, rfl⟩ := List.mem_map.mp hmem
    rfl
  · intro hh i hi
    rw [omniWheel_map_getD _ wheels i hi]
    simp [hh]

/-- A 1-wheel solver with home-on-stop enabled, for the C2 witness. -/
noncomputable def c2_kin : OmniKinematics := { OmniKinematics.init 1 with home_on_stop := true }

/-- Witness for C2: one default wheel, home-on-stop enabled. -/
theorem compute_zero_command_witness :
    ([({} : OmniWheel)].length = c2_kin.num_wheels) ∧
    ∃ res k2,
      c2_kin.compute [{}] 0 0 0 = Except.ok (res, k2) ∧
      res.length = [({} : OmniWheel)].length ∧
      (∀ wheel2 ∈ res, wheel2.wheel_vel = 0) ∧
      (c2_kin.home_on_stop = true →
        ∀ i < [({} : OmniWheel)].length,
          (res.getD i default).wheel_angle = ([({} : OmniWheel)].getD i default).home_angle) :=
  ⟨rfl, compute_zero_command c2_kin [{}] rfl⟩

/-- C10: on the all-zero command, `compute` returns the solver state
unchanged (in particular `is_driving` and `is_alternate` are untouched:
the second returned component is the input solver `k` itself), and
every field of each returned wheel other than `wheel_vel` (and other
than `wheel_angle` when `home_on_stop` is enabled) is copied unchanged
from the corresponding input wheel. -/
theorem compute_zero_command_frame :
    ∀ (k : OmniKinematics) (wheels : List OmniWheel),
      wheels.length = k.num_wheels →
      ∃ res,
        k.compute wheels 0 0 0 = Except.ok (res, k) ∧
        res.length = wheels.length ∧
        ∀ i < wheels.length,
          (res.getD i default).center_pos_x = (wheels.getD i default).center_pos_x ∧
          (res.getD i default).center_pos_y = (wheels.getD i default).center_pos_y ∧
          (res.getD i default).home_angle = (wheels.getD i default).home_angle ∧
          (k.home_on_stop = false →
            (res.getD i default).wheel_angle = (wheels.getD i default).wheel_angle) := by
  intro k wheels hlen
  rw [OmniKinematics.compute, if_neg (fun hne => hne hlen), if_pos ⟨rfl, rfl, rfl⟩]
  refine ⟨_, rfl, by simp, ?_⟩
  intro i hi
  rw [omniWheel_map_getD _ wheels i hi]
  refine ⟨rfl, rfl, rfl, ?_⟩
  intro hh
  simp [hh]

/-- A 1-wheel solver with default configuration, for the C10 witness. -/
noncomputable def c10_kin : OmniKinematics := OmniKinematics.init 1

/-- Witness for C10: one default wheel, default configuration. -/
theorem compute_zero_command_frame_witness :
    ([({} : OmniWheel)].length = c10_kin.num_wheels) ∧
    ∃ res,
      c10_kin.compute [{}] 0 0 0 = Except.ok (res, c10_kin) ∧
      res.length = [({} : OmniWheel)].length ∧
      ∀ i < [({} : OmniWheel)].length,
        (res.getD i default).center_pos_x = ([({} : OmniWheel)].getD i default).center_pos_x ∧
        (res.getD i default).center_pos_y = ([({} : OmniWheel)].getD i default).center_pos_y ∧
        (res.getD i default).home_angle = ([({} : OmniWheel)].getD i default).home_angle ∧
        (c10_kin.home_on_stop = false →
          (res.getD i default).wheel_angle = ([({} : OmniWheel)].getD i default).wheel_angle) :=
  ⟨rfl, compute_zero_command_frame c10_kin [{}] rfl⟩

/-- C3: with a non-zero command, the new `is_driving[i]` flag stored by
`compute` is set exactly when the magnitude of wheel `i`'s previous
commanded velocity exceeds `zero_vel_threshold` if the wheel was
previously marked driving, and `2 * zero_vel_threshold` if it was not
(the asymmetric dead-band). -/
theorem compute_driving_classification :
    ∀ (k : OmniKinematics) (wheels : List OmniWheel) (move_vel_x move_vel_y move_yawrate : ℝ)
      (i : ℕ),
      wheels.length = k.num_wheels →
      k.is_driving.length = k.num_wheels →
      k.is_alternate.length = k.num_wheels →
      ¬(move_vel_x = 0 ∧ move_vel_y = 0 ∧ move_yawrate = 0) →
      i < k.num_wheels →
      ∃ res k2,
        k.compute wheels move_vel_x move_vel_y move_yawrate = Except.ok (res, k2) ∧
        (k2.is_driving.getD i false = true ↔
          |(wheels.getD i default).wheel_vel| >
            (if k.is_driving.getD i false then k.zero_vel_threshold
             else 2 * k.zero_vel_threshold)) := by
  intro k wheels move_vel_x move_vel_y move_yawrate i hlen hd ha hnz hi
  rw [OmniKinematics.compute, if_neg (fun hne => hne hlen), if_neg hnz]
  refine ⟨_, _, rfl, ?_⟩
  have hgd := computeLoop_getD k move_vel_x move_vel_y move_yawrate wheels k.is_driving
    k.is_alternate i (by omega) (by omega) (by omega)
  show (computeLoop k move_vel_x move_vel_y move_yawrate wheels k.is_driving
      k.is_alternate).2.1.getD i false = true ↔ _
  rw [hgd.2.1]
  exact computeWheel_isDriving k _ _ _ move_vel_x move_vel_y move_yawrate

/-- A 1-wheel solver whose wheel is currently marked driving, for the
C3 witness. -/
noncomputable def c3_kin : OmniKinematics :=
  { num_wheels := 1, is_driving := [true], is_alternate := [false] }

/-- A wheel previously commanded at 1 m/s, for the C3 witness. -/
noncomputable def c3_wheel : OmniWheel := { wheel_vel := 1 }

/-- Witness for C3 at a concrete 1-wheel configuration and the command
`(1, 0, 0)`. -/
theorem compute_driving_classification_witness :
    (¬((1 : ℝ) = 0 ∧ (0 : ℝ) = 0 ∧ (0 : ℝ) = 0)) ∧
    ∃ res k2,
      c3_kin.compute [c3_wheel] 1 0 0 = Except.ok (res, k2) ∧
      (k2.is_driving.getD 0 false = true ↔
        |(([c3_wheel] : List OmniWheel).getD 0 default).wheel_vel| >
          (if c3_kin.is_driving.getD 0 false then c3_kin.zero_vel_threshold
           else 2 * c3_kin.zero_vel_threshold)) :=
  ⟨by simp,
   compute_driving_classification c3_kin [c3_wheel] 1 0 0 0 rfl rfl rfl (by simp) (by decide)⟩

/-- C4: for a wheel classified as driving, if the candidate speed and
the previous commanded velocity have opposite signs the returned angle
is the candidate angle plus `π` normalized into `(-π, π]`, the returned
velocity is the negated candidate speed, and the alternate flag is set;
if the signs agree, candidate angle and speed are returned unchanged
and the alternate flag is cleared. -/
theorem compute_driving_hysteresis :
    ∀ (k : OmniKinematics) (wheels : List OmniWheel) (move_vel_x move_vel_y move_yawrate : ℝ)
      (i : ℕ),
      wheels.length = k.num_wheels →
      k.is_driving.length = k.num_wheels →
      k.is_alternate.length = k.num_wheels →
      ¬(move_vel_x = 0 ∧ move_vel_y = 0 ∧ move_yawrate = 0) →
      i < k.num_wheels →
      |(wheels.getD i default).wheel_vel| >
        (if k.is_driving.getD i false then k.zero_vel_threshold
         else 2 * k.zero_vel_threshold) →
      ∃ res k2,
        k.compute wheels move_vel_x move_vel_y move_yawrate = Except.ok (res, k2) ∧
        (new_wheel_vel (wheels.getD i default) move_vel_x move_vel_y move_yawrate *
            (wheels.getD i default).wheel_vel < 0 →
          (res.getD i default).wheel_angle =
              normalize_angle
                (new_wheel_angle (wheels.getD i default) move_vel_x move_vel_y move_yawrate +
                  Real.pi) ∧
            -Real.pi < (res.getD i default).wheel_angle ∧
            (res.getD i default).wheel_angle ≤ Real.pi ∧
            (res.getD i default).wheel_vel =
              -(new_wheel_vel (wheels.getD i default) move_vel_x move_vel_y move_yawrate) ∧
            k2.is_alternate.getD i false = true) ∧
        (new_wheel_vel (wheels.getD i default) move_vel_x move_vel_y move_yawrate *
            (wheels.getD i default).wheel_vel > 0 →
          (res.getD i default).wheel_angle =
              new_wheel_angle (wheels.getD i default) move_vel_x move_vel_y move_yawrate ∧
            (res.getD i default).wheel_vel =
              new_wheel_vel (wheels.getD i default) move_vel_x move_vel_y move_yawrate ∧
            k2.is_alternate.getD i false = false) := by
  intro k wheels move_vel_x move_vel_y move_yawrate i hlen hd ha hnz hi hdrv
  rw [OmniKinematics.compute, if_neg (fun hne => hne hlen), if_neg hnz]
  have hgd := computeLoop_getD k move_vel_x move_vel_y move_yawrate wheels k.is_driving
    k.is_alternate i (by omega) (by omega) (by omega)
  refine ⟨_, _, rfl, ?_, ?_⟩
  · intro hneg
    have hflip := computeWheel_driving_flip k (wheels.getD i default)
      (k.is_driving.getD i false) (k.is_alternate.getD i false)
      move_vel_x move_vel_y move_yawrate hdrv hneg
    have hres : (computeLoop k move_vel_x move_vel_y move_yawrate wheels k.is_driving
        k.is_alternate).1.getD i default =
        { (wheels.getD i default).set_wheel_angle
            (normalize_angle (new_wheel_angle (wheels.getD i default) move_vel_x move_vel_y
              move_yawrate + Real.pi)) with
          wheel_vel := -1 * new_wheel_vel (wheels.getD i default) move_vel_x move_vel_y
            move_yawrate } := by
      rw [hgd.1, hflip]
    have halt : (computeLoop k move_vel_x move_vel_y move_yawrate wheels k.is_driving
        k.is_alternate).2.2.getD i false = true := by
      rw [hgd.2.2, hflip]
    rw [hres]
    refine ⟨rfl, ?_, ?_, ?_, halt⟩
    · show -Real.pi < normalize_angle (new_wheel_angle (wheels.getD i default) move_vel_x
        move_vel_y move_yawrate + Real.pi)
      exact (normalize_angle_range _).1
    · show normalize_angle (new_wheel_angle (wheels.getD i default) move_vel_x
        move_vel_y move_yawrate + Real.pi) ≤ Real.pi
      exact (normalize_angle_range _).2
    · show -1 * new_wheel_vel (wheels.getD i default) move_vel_x move_vel_y move_yawrate =
        -(new_wheel_vel (wheels.getD i default) move_vel_x move_vel_y move_yawrate)
      exact neg_one_mul _
  · intro hpos
    have hnon : ¬(new_wheel_vel (wheels.getD i default) move_vel_x move_vel_y move_yawrate *
        (wheels.getD i default).wheel_vel < 0) := not_lt.mpr (le_of_lt hpos)
    have hkeep := computeWheel_driving_keep k (wheels.getD i default)
      (k.is_driving.getD i false) (k.is_alternate.getD i false)
      move_vel_x move_vel_y move_yawrate hdrv hnon
    have hres : (computeLoop k move_vel_x move_vel_y move_yawrate wheels k.is_driving
        k.is_alternate).1.getD i default =
        { (wheels.getD i default).set_wheel_angle
            (new_wheel_angle (wheels.getD i default) move_vel_x move_vel_y move_yawrate) with
          wheel_vel := new_wheel_vel (wheels.getD i default) move_vel_x move_vel_y
            move_yawrate } := by
      rw [hgd.1, hkeep]
    have halt : (computeLoop k move_vel_x move_vel_y move_yawrate wheels k.is_driving
        k.is_alternate).2.2.getD i false = false := by
      rw [hgd.2.2, hkeep]
    rw [hres]
    exact ⟨rfl, rfl, halt⟩

/-- A 1-wheel solver whose wheel is currently marked driving, for the
C4 witness. -/
noncomputable def c4_kin : OmniKinematics :=
  { num_wheels := 1, is_driving := [true], is_alternate := [false] }

/-- A wheel previously commanded at -1 m/s (driving backwards), for
the C4 witness. -/
noncomputable def c4_wheel : OmniWheel := { wheel_vel := -1 }

theorem c4_wheel_candidate_vel : new_wheel_vel c4_wheel 1 0 0 = 1 := by
  have hx : cmd_vel_x c4_wheel 1 0 = 1 := by simp [cmd_vel_x]
  have hy : cmd_vel_y c4_wheel 0 0 = 0 := by simp [cmd_vel_y]
  rw [new_wheel_vel, hx, hy, hypot]
  norm_num

/-- Witness for C4 at a concrete 1-wheel configuration: previous wheel
velocity `-1`, command `(1, 0, 0)` giving candidate speed `+1`, which
has the opposite sign. -/
theorem compute_driving_hysteresis_witness :
    (|(([c4_wheel] : List OmniWheel).getD 0 default).wheel_vel| >
      (if c4_kin.is_driving.getD 0 false then c4_kin.zero_vel_threshold
       else 2 * c4_kin.zero_vel_threshold)) ∧
    new_wheel_vel (([c4_wheel] : List OmniWheel).getD 0 default) 1 0 0 *
      (([c4_wheel] : List OmniWheel).getD 0 default).wheel_vel < 0 ∧
    ∃ res k2,
      c4_kin.compute [c4_wheel] 1 0 0 = Except.ok (res, k2) ∧
      (new_wheel_vel (([c4_wheel] : List OmniWheel).getD 0 default) 1 0 0 *
          (([c4_wheel] : List OmniWheel).getD 0 default).wheel_vel < 0 →
        (res.getD 0 default).wheel_angle =
            normalize_angle
              (new_wheel_angle (([c4_wheel] : List OmniWheel).getD 0 default) 1 0 0 + Real.pi) ∧
          -Real.pi < (res.getD 0 default).wheel_angle ∧
          (res.getD 0 default).wheel_angle ≤ Real.pi ∧
          (res.getD 0 default).wheel_vel =
            -(new_wheel_vel (([c4_wheel] : List OmniWheel).getD 0 default) 1 0 0) ∧
          k2.is_alternate.getD 0 false = true) ∧
      (new_wheel_vel (([c4_wheel] : List OmniWheel).getD 0 default) 1 0 0 *
          (([c4_wheel] : List OmniWheel).getD 0 default).wheel_vel > 0 →
        (res.getD 0 default).wheel_angle =
            new_wheel_angle (([c4_wheel] : List OmniWheel).getD 0 default) 1 0 0 ∧
          (res.getD 0 default).wheel_vel =
            new_wheel_vel (([c4_wheel] : List OmniWheel).getD 0 default) 1 0 0 ∧
          k2.is_alternate.getD 0 false = false) := by
  have hdrv : |(([c4_wheel] : List OmniWheel).getD 0 default).wheel_vel| >
      (if c4_kin.is_driving.getD 0 false then c4_kin.zero_vel_threshold
       else 2 * c4_kin.zero_vel_threshold) := by
    norm_num [c4_kin, c4_wheel]
  have hneg : new_wheel_vel (([c4_wheel] : List OmniWheel).getD 0 default) 1 0 0 *
      (([c4_wheel] : List OmniWheel).getD 0 default).wheel_vel < 0 := by
    have hv : (([c4_wheel] : List OmniWheel).getD 0 default) = c4_wheel := rfl
    rw [hv, c4_wheel_candidate_vel]
    norm_num [c4_wheel]
  exact ⟨hdrv, hneg,
    compute_driving_hysteresis c4_kin [c4_wheel] 1 0 0 0 rfl rfl rfl (by simp) (by decide) hdrv⟩
